import Mathlib

/-!
Verification of the cascaded moment estimators of the `average` crate
(`src/moments/kurtosis.rs` and its specification).

The estimators are embedded shallowly over exact rationals: every `f64`
becomes a `ℚ`, the `u64` count becomes a `ℕ`.  `Kurtosis` and its
operations are translated from `src/moments/kurtosis.rs`; the inner
`Skewness`, `Variance` and `Mean` types, whose source files are not in
scope, are modelled from the specification (§4.1–§4.3), as are the
query accessors that `Kurtosis` merely delegates.

A second, tiny model (`FP`) tracks IEEE NaN propagation exactly where the
rational embedding cannot: division by zero.  It is used to analyse the
merge of two empty estimators.
-/

set_option maxHeartbeats 3200000

namespace Average

/-- Modelled from the spec (§4.1): the leaf `Mean` estimator, whose source
file is not in scope, holds the sample count `n` and the running mean. -/
@[ext]
structure Mean where
  n : ℕ
  mean : ℚ
deriving DecidableEq

/-- Modelled from the spec (§3, lifecycle): the empty `Mean`. -/
def Mean.new : Mean := ⟨0, 0⟩

/-- Modelled from the spec (§4.2 cascade): increment the sample size only. -/
def Mean.increment (s : Mean) : Mean := { s with n := s.n + 1 }

/-- Modelled from the spec (§4.2, last step of the cascaded add): with the
count already incremented, the running mean advances by `delta_n`. -/
def Mean.add_inner (s : Mean) (delta_n : ℚ) : Mean :=
  { s with mean := s.mean + delta_n }

/-- Modelled from the spec (§4.1): `add(x)`: `n ← n+1`, `δ ← x − μ`,
`μ ← μ + δ/n` with the new `n`. -/
def Mean.add (s : Mean) (x : ℚ) : Mean :=
  (s.increment).add_inner ((x - s.mean) / ((s.n : ℚ) + 1))

/-- Modelled from the spec (§4.1): merge; if `n_total = 0` the merge is a
no-op, else `μ ← μ + δ·other.n/n_total` and `n ← n_total`. -/
def Mean.merge (s o : Mean) : Mean :=
  if s.n + o.n = 0 then s
  else
    { n := s.n + o.n
      mean := s.mean + (o.mean - s.mean) * (o.n : ℚ) / ((s.n : ℚ) + (o.n : ℚ)) }

/-- Modelled from the spec (§4.2): `Variance` owns a `Mean` and the running
sum of squared deviations `sum_2`. -/
@[ext]
structure Variance where
  avg : Mean
  sum_2 : ℚ
deriving DecidableEq

/-- Modelled from the spec: the empty `Variance`. -/
def Variance.new : Variance := ⟨Mean.new, 0⟩

/-- Sample size of a `Variance` (delegated accessor). -/
def Variance.len (s : Variance) : ℕ := s.avg.n

/-- Modelled from the spec: increment the inner count only. -/
def Variance.increment (s : Variance) : Variance := { s with avg := s.avg.increment }

/-- Modelled from the spec (§4.2): with the count already incremented to `n'`,
`sum_2 ← sum_2 + δ·δₙ·(n'−1)`, then the owned `Mean` advances by `δₙ`. -/
def Variance.add_inner (s : Variance) (delta delta_n : ℚ) : Variance :=
  { avg := s.avg.add_inner delta_n
    sum_2 := s.sum_2 + delta * delta_n * ((s.len : ℚ) - 1) }

/-- Modelled from the spec (§4.2): `add(x)` computes `δ` from the pre-update
mean, increments the count, and feeds `δ, δ/n'` to the inner update. -/
def Variance.add (s : Variance) (x : ℚ) : Variance :=
  let delta := x - s.avg.mean
  let s' := s.increment
  s'.add_inner delta (delta / (s'.len : ℚ))

/-- Modelled from the spec (§4.2): merge; if either side is empty the result
is the non-empty side's state, else
`sum_2 ← sum_2 + other.sum_2 + δ²·n·other.n/n_total`, then the inner merge. -/
def Variance.merge (s o : Variance) : Variance :=
  if o.len = 0 then s
  else if s.len = 0 then o
  else
    let n : ℚ := (s.len : ℚ)
    let m : ℚ := (o.len : ℚ)
    let delta := o.avg.mean - s.avg.mean
    { avg := s.avg.merge o.avg
      sum_2 := s.sum_2 + o.sum_2 + delta ^ 2 * n * m / (n + m) }

/-- Modelled from the spec (§4.2): `sample_variance() = sum_2/(n−1)`,
0 when `n < 2`. -/
def Variance.sample_variance (s : Variance) : ℚ :=
  if s.len < 2 then 0 else s.sum_2 / ((s.len : ℚ) - 1)

/-- Modelled from the spec (§4.2): `population_variance() = sum_2/n`,
0 when `n = 0`. -/
def Variance.population_variance (s : Variance) : ℚ :=
  if s.len = 0 then 0 else s.sum_2 / (s.len : ℚ)

/-- Modelled from the spec (§4.2): `error_mean() = sqrt(sample_variance()/n)`
(0 when `n < 2`).  The value is an irrational square root in general, so the
embedding keeps the radicand `sample_variance()/n` exactly; `error_mean`
itself is its (nonnegative) square root. -/
def Variance.error_mean_sq (s : Variance) : ℚ :=
  if s.len < 2 then 0 else s.sample_variance / (s.len : ℚ)

/-- Modelled from the spec (§4.3): `Skewness` owns a `Variance` and the
running sum of cubed deviations `sum_3`. -/
@[ext]
structure Skewness where
  avg : Variance
  sum_3 : ℚ
deriving DecidableEq

/-- Modelled from the spec: the empty `Skewness`. -/
def Skewness.new : Skewness := ⟨Variance.new, 0⟩

/-- Sample size of a `Skewness` (delegated accessor). -/
def Skewness.len (s : Skewness) : ℕ := s.avg.len

/-- Modelled from the spec: increment the inner count only. -/
def Skewness.increment (s : Skewness) : Skewness := { s with avg := s.avg.increment }

/-- Modelled from the spec (§4.3): with the count already incremented to `n'`,
`term = δ·δₙ·(n'−1)`, `sum_3 ← sum_3 + term·δₙ·(n'−2) − 3·δₙ·sum_2_before`,
reading the owned `Variance`'s pre-update `sum_2`, then the inner update. -/
def Skewness.add_inner (s : Skewness) (delta delta_n : ℚ) : Skewness :=
  let n : ℚ := (s.len : ℚ)
  let term := delta * delta_n * (n - 1)
  { avg := s.avg.add_inner delta delta_n
    sum_3 := s.sum_3 + term * delta_n * (n - 2) - 3 * delta_n * s.avg.sum_2 }

/-- Modelled from the spec (§4.3): `add(x)`. -/
def Skewness.add (s : Skewness) (x : ℚ) : Skewness :=
  let delta := x - s.avg.avg.mean
  let s' := s.increment
  s'.add_inner delta (delta / (s'.len : ℚ))

/-- Modelled from the spec (§4.3): merge; if one side is empty the merge
adopts the other side's full state, else
`sum_3 ← sum_3 + other.sum_3 + δ³·n·m·(n−m)/n_total² + 3·(δ/n_total)·(n·other.sum_2 − m·sum_2)`,
then the inner merge. -/
def Skewness.merge (s o : Skewness) : Skewness :=
  if o.len = 0 then s
  else if s.len = 0 then o
  else
    let n : ℚ := (s.len : ℚ)
    let m : ℚ := (o.len : ℚ)
    let n_total := n + m
    let delta := o.avg.avg.mean - s.avg.avg.mean
    { avg := s.avg.merge o.avg
      sum_3 := s.sum_3 + o.sum_3
        + delta ^ 3 * n * m * (n - m) / n_total ^ 2
        + 3 * (delta / n_total) * (n * o.avg.sum_2 - m * s.avg.sum_2) }

/-- Modelled from the spec (§4.3): `skewness() = √n·sum_3/sum_2^1.5`
(0 when `sum_2 = 0` or `n < 2`).  The value is irrational in general; since
`√n ≥ 0` and `sum_2^1.5 ≥ 0`, it is determined exactly by its signed square
`sign·skewness² = n·sum_3·|sum_3|/sum_2³`, which the embedding keeps in `ℚ`. -/
def Skewness.skewness_signed_sq (s : Skewness) : ℚ :=
  if s.avg.sum_2 = 0 ∨ s.len < 2 then 0
  else (s.len : ℚ) * s.sum_3 * |s.sum_3| / s.avg.sum_2 ^ 3

/-- `Kurtosis` (kurtosis.rs, lines 5–11): an owned `Skewness` plus the
running sum of fourth-power deviations `sum_4`. -/
@[ext]
structure Kurtosis where
  avg : Skewness
  sum_4 : ℚ
deriving DecidableEq

/-- `Kurtosis::new` (kurtosis.rs, lines 16–21). -/
def Kurtosis.new : Kurtosis := ⟨Skewness.new, 0⟩

/-- `Kurtosis::len` (kurtosis.rs, lines 75–77), delegating down the chain. -/
def Kurtosis.len (s : Kurtosis) : ℕ := s.avg.len

/-- `Kurtosis::is_empty` (kurtosis.rs, lines 61–63). -/
def Kurtosis.is_empty (s : Kurtosis) : Bool := s.len == 0

/-- `Kurtosis::mean` (kurtosis.rs, lines 69–71), delegating down the chain. -/
def Kurtosis.mean (s : Kurtosis) : ℚ := s.avg.avg.avg.mean

/-- `Kurtosis::increment` (kurtosis.rs, lines 36–38). -/
def Kurtosis.increment (s : Kurtosis) : Kurtosis := { s with avg := s.avg.increment }

/-- `Kurtosis::add_inner` (kurtosis.rs, lines 46–57): with the count already
incremented to `n`, update `sum_4` reading the owned chain's pre-update
`sum_2` (`self.avg.avg.sum_2`) and `sum_3` (`self.avg.sum_3`), then
propagate `(δ, δₙ)` into the owned `Skewness`. -/
def Kurtosis.add_inner (s : Kurtosis) (delta delta_n : ℚ) : Kurtosis :=
  let n : ℚ := (s.len : ℚ)
  let term := delta * delta_n * (n - 1)
  let delta_n_sq := delta_n * delta_n
  { avg := s.avg.add_inner delta delta_n
    sum_4 := s.sum_4 + term * delta_n_sq * (n * n - 3 * n + 3)
      + 6 * delta_n_sq * s.avg.avg.sum_2
      - 4 * delta_n * s.avg.sum_3 }

/-- `Kurtosis::add` (kurtosis.rs, lines 25–30): `δ` from the pre-update mean,
increment, then `add_inner(δ, δ/n')` with the post-update count `n'`. -/
def Kurtosis.add (s : Kurtosis) (x : ℚ) : Kurtosis :=
  let delta := x - s.mean
  let s' := s.increment
  s'.add_inner delta (delta / (s'.len : ℚ))

/-- `Kurtosis::sample_variance` (kurtosis.rs, lines 83–85), delegated. -/
def Kurtosis.sample_variance (s : Kurtosis) : ℚ := s.avg.avg.sample_variance

/-- `Kurtosis::population_variance` (kurtosis.rs, lines 91–93), delegated. -/
def Kurtosis.population_variance (s : Kurtosis) : ℚ := s.avg.avg.population_variance

/-- `Kurtosis::error_mean` (kurtosis.rs, lines 97–99), delegated; represented
by its squared value, see `Variance.error_mean_sq`. -/
def Kurtosis.error_mean_sq (s : Kurtosis) : ℚ := s.avg.avg.error_mean_sq

/-- `Kurtosis::skewness` (kurtosis.rs, lines 103–105), delegated; represented
by its signed square, see `Skewness.skewness_signed_sq`. -/
def Kurtosis.skewness_signed_sq (s : Kurtosis) : ℚ := s.avg.skewness_signed_sq

/-- `Kurtosis::kurtosis` (kurtosis.rs, lines 109–115): 0 if `sum_4 = 0`, else
`n·sum_4/sum_2² − 3`. -/
def Kurtosis.kurtosis (s : Kurtosis) : ℚ :=
  if s.sum_4 = 0 then 0
  else (s.len : ℚ) * s.sum_4 / (s.avg.avg.sum_2 * s.avg.avg.sum_2) - 3

/-- `Kurtosis::merge` (kurtosis.rs, lines 119–132).  Note there is no empty
guard at this level: `delta_n = delta / len_total` is computed outright.  In
`ℚ` a division by zero yields 0; the IEEE behaviour of this corner (NaN) is
analysed separately with the `FP` model below. -/
def Kurtosis.merge (s o : Kurtosis) : Kurtosis :=
  let len_self : ℚ := (s.len : ℚ)
  let len_other : ℚ := (o.len : ℚ)
  let len_total := len_self + len_other
  let delta := o.mean - s.mean
  let delta_n := delta / len_total
  let delta_n_sq := delta_n * delta_n
  { avg := s.avg.merge o.avg
    sum_4 := s.sum_4 + o.sum_4
      + delta * delta_n * delta_n_sq * len_self * len_other
        * (len_self * len_self - len_self * len_other + len_other * len_other)
      + 6 * delta_n_sq * (len_self * len_self * o.avg.avg.sum_2
        + len_other * len_other * s.avg.avg.sum_2)
      + 4 * delta_n * (len_self * o.avg.sum_3 - len_other * s.avg.sum_3) }

/-- `FromIterator for Kurtosis` (kurtosis.rs, lines 135–145): start from
`new` and `add` each element in order. -/
def Kurtosis.from_iter (xs : List ℚ) : Kurtosis := xs.foldl Kurtosis.add Kurtosis.new

/-! ### The closed-form moment state of a list

The running estimator is shown to maintain, for the list of observations fed
to it, exactly the count, the arithmetic mean, and the power sums of
deviations from that mean. -/

/-- Sum of `k`-th powers of deviations from a fixed point `t`. -/
def pSum (k : ℕ) (t : ℚ) (xs : List ℚ) : ℚ := (xs.map (fun x => (x - t) ^ k)).sum

/-- Arithmetic mean of a list (`0` for the empty list, via `ℚ`'s `x/0 = 0`). -/
def lmean (xs : List ℚ) : ℚ := xs.sum / (xs.length : ℚ)

/-- The exact moment state of a list: count, mean, and the central power sums
about the list's own mean. -/
def stateOf (xs : List ℚ) : Kurtosis :=
  { avg := { avg := { avg := { n := xs.length, mean := lmean xs }
                      sum_2 := pSum 2 (lmean xs) xs }
             sum_3 := pSum 3 (lmean xs) xs }
    sum_4 := pSum 4 (lmean xs) xs }

@[simp]
lemma pSum_nil (k : ℕ) (t : ℚ) : pSum k t [] = 0 := rfl

@[simp]
lemma pSum_cons (k : ℕ) (t x : ℚ) (xs : List ℚ) :
    pSum k t (x :: xs) = (x - t) ^ k + pSum k t xs := by
  simp [pSum]

@[simp]
lemma pSum_append (k : ℕ) (t : ℚ) (xs ys : List ℚ) :
    pSum k t (xs ++ ys) = pSum k t xs + pSum k t ys := by
  simp [pSum]

@[simp]
lemma lmean_nil : lmean [] = 0 := by
  simp [lmean]

lemma sum_eq_length_mul_lmean (xs : List ℚ) :
    xs.sum = (xs.length : ℚ) * lmean xs := by
  rcases eq_or_ne xs.length 0 with h | h
  · rw [List.length_eq_zero] at h
    subst h
    simp
  · have h' : (xs.length : ℚ) ≠ 0 := Nat.cast_ne_zero.mpr h
    rw [lmean]
    field_simp

lemma pSum_one (t : ℚ) (xs : List ℚ) :
    pSum 1 t xs = xs.sum - (xs.length : ℚ) * t := by
  induction xs with
  | nil => simp
  | cons x xs ih =>
      simp only [pSum_cons, ih, List.sum_cons, List.length_cons]
      push_cast
      ring

lemma pSum_one_lmean (xs : List ℚ) : pSum 1 (lmean xs) xs = 0 := by
  rw [pSum_one, sum_eq_length_mul_lmean]
  ring

lemma pSum_two_shift (t u : ℚ) (xs : List ℚ) :
    pSum 2 t xs
      = pSum 2 u xs + 2 * (u - t) * pSum 1 u xs
        + (xs.length : ℚ) * (u - t) ^ 2 := by
  induction xs with
  | nil => simp
  | cons x xs ih =>
      simp only [pSum_cons, List.length_cons, ih]
      push_cast
      ring

lemma pSum_three_shift (t u : ℚ) (xs : List ℚ) :
    pSum 3 t xs
      = pSum 3 u xs + 3 * (u - t) * pSum 2 u xs
        + 3 * (u - t) ^ 2 * pSum 1 u xs + (xs.length : ℚ) * (u - t) ^ 3 := by
  induction xs with
  | nil => simp
  | cons x xs ih =>
      simp only [pSum_cons, List.length_cons, ih]
      push_cast
      ring

lemma pSum_four_shift (t u : ℚ) (xs : List ℚ) :
    pSum 4 t xs
      = pSum 4 u xs + 4 * (u - t) * pSum 3 u xs
        + 6 * (u - t) ^ 2 * pSum 2 u xs + 4 * (u - t) ^ 3 * pSum 1 u xs
        + (xs.length : ℚ) * (u - t) ^ 4 := by
  induction xs with
  | nil => simp
  | cons x xs ih =>
      simp only [pSum_cons, List.length_cons, ih]
      push_cast
      ring

lemma stateOf_nil : stateOf [] = Kurtosis.new := by
  simp [stateOf, Kurtosis.new, Skewness.new, Variance.new, Mean.new]

lemma lmean_append_singleton (xs : List ℚ) (y : ℚ) :
    lmean (xs ++ [y])
      = lmean xs + (y - lmean xs) / ((xs.length : ℚ) + 1) := by
  have h1 : ((xs.length : ℚ) + 1) ≠ 0 := by positivity
  rw [lmean, List.sum_append, List.length_append, sum_eq_length_mul_lmean xs]
  push_cast
  field_simp
  ring

/-- `add` maintains the closed-form moment state: the Pébay single-pass
update of the whole chain is exact over `ℚ`. -/
theorem add_stateOf (xs : List ℚ) (y : ℚ) :
    (stateOf xs).add y = stateOf (xs ++ [y]) := by
  have h1 : ((xs.length : ℚ) + 1) ≠ 0 := by positivity
  have hmean := lmean_append_singleton xs y
  refine Kurtosis.ext (Skewness.ext (Variance.ext (Mean.ext ?_ ?_) ?_) ?_) ?_
  · simp [stateOf, Kurtosis.add, Kurtosis.mean, Kurtosis.increment, Kurtosis.len,
      Kurtosis.add_inner, Skewness.increment, Skewness.add_inner, Skewness.len,
      Variance.increment, Variance.add_inner, Variance.len, Mean.increment,
      Mean.add_inner]
  · simp only [stateOf, Kurtosis.add, Kurtosis.mean, Kurtosis.increment, Kurtosis.len,
      Kurtosis.add_inner, Skewness.increment, Skewness.add_inner, Skewness.len,
      Variance.increment, Variance.add_inner, Variance.len, Mean.increment,
      Mean.add_inner]
    push_cast
    rw [hmean]
  · simp only [stateOf, Kurtosis.add, Kurtosis.mean, Kurtosis.increment, Kurtosis.len,
      Kurtosis.add_inner, Skewness.increment, Skewness.add_inner, Skewness.len,
      Variance.increment, Variance.add_inner, Variance.len, Mean.increment,
      Mean.add_inner]
    push_cast
    rw [hmean, pSum_append,
        pSum_two_shift (lmean xs + (y - lmean xs) / ((xs.length : ℚ) + 1)) (lmean xs) xs,
        pSum_one_lmean]
    simp only [pSum_cons, pSum_nil]
    field_simp
    ring
  · simp only [stateOf, Kurtosis.add, Kurtosis.mean, Kurtosis.increment, Kurtosis.len,
      Kurtosis.add_inner, Skewness.increment, Skewness.add_inner, Skewness.len,
      Variance.increment, Variance.add_inner, Variance.len, Mean.increment,
      Mean.add_inner]
    push_cast
    rw [hmean, pSum_append,
        pSum_three_shift (lmean xs + (y - lmean xs) / ((xs.length : ℚ) + 1)) (lmean xs) xs,
        pSum_one_lmean]
    simp only [pSum_cons, pSum_nil]
    field_simp
    ring
  · simp only [stateOf, Kurtosis.add, Kurtosis.mean, Kurtosis.increment, Kurtosis.len,
      Kurtosis.add_inner, Skewness.increment, Skewness.add_inner, Skewness.len,
      Variance.increment, Variance.add_inner, Variance.len, Mean.increment,
      Mean.add_inner]
    push_cast
    rw [hmean, pSum_append,
        pSum_four_shift (lmean xs + (y - lmean xs) / ((xs.length : ℚ) + 1)) (lmean xs) xs,
        pSum_one_lmean]
    simp only [pSum_cons, pSum_nil]
    field_simp
    ring

/-- Merging the empty estimator into any estimator is the identity: the inner
levels short-circuit on their empty guards, and every `sum_4` correction term
of `Kurtosis::merge` carries a factor that vanishes for an empty right side. -/
lemma merge_new_right (s : Kurtosis) : s.merge Kurtosis.new = s := by
  refine Kurtosis.ext ?_ ?_
  · show s.avg.merge Skewness.new = s.avg
    rw [Skewness.merge]
    simp [Skewness.new, Variance.new, Mean.new, Skewness.len, Variance.len]
  · simp only [Kurtosis.merge, Kurtosis.new, Skewness.new, Variance.new, Mean.new,
      Kurtosis.len, Kurtosis.mean, Skewness.len, Variance.len]
    push_cast
    ring

/-- Merging any non-empty estimator into the empty one adopts its state. -/
lemma merge_new_left (o : Kurtosis) (h : o.len ≠ 0) : Kurtosis.new.merge o = o := by
  have h' : o.avg.avg.avg.n ≠ 0 := h
  refine Kurtosis.ext ?_ ?_
  · show Skewness.new.merge o.avg = o.avg
    rw [Skewness.merge]
    simp [h', Skewness.new, Variance.new, Mean.new, Skewness.len, Variance.len]
  · simp only [Kurtosis.merge, Kurtosis.new, Skewness.new, Variance.new, Mean.new,
      Kurtosis.len, Kurtosis.mean, Skewness.len, Variance.len]
    push_cast
    ring

lemma lmean_append (xs ys : List ℚ) (h : ((xs.length : ℚ) + (ys.length : ℚ)) ≠ 0) :
    lmean (xs ++ ys)
      = ((xs.length : ℚ) * lmean xs + (ys.length : ℚ) * lmean ys)
        / ((xs.length : ℚ) + (ys.length : ℚ)) := by
  rw [lmean, List.sum_append, List.length_append,
      sum_eq_length_mul_lmean xs, sum_eq_length_mul_lmean ys]
  push_cast
  ring

/-- `merge` combines two closed-form moment states into the moment state of
the concatenation: the pairwise Pébay merge formulas are exact over `ℚ`. -/
theorem merge_stateOf (xs ys : List ℚ) :
    (stateOf xs).merge (stateOf ys) = stateOf (xs ++ ys) := by
  rcases eq_or_ne ys.length 0 with hm | hm
  · rw [List.length_eq_zero] at hm
    subst hm
    rw [stateOf_nil, merge_new_right, List.append_nil]
  rcases eq_or_ne xs.length 0 with hn | hn
  · rw [List.length_eq_zero] at hn
    subst hn
    have h2 : (stateOf ys).len ≠ 0 := by
      simpa [stateOf, Kurtosis.len, Skewness.len, Variance.len] using hm
    rw [stateOf_nil, merge_new_left _ h2, List.nil_append]
  · have hn' : ((xs.length : ℚ)) ≠ 0 := Nat.cast_ne_zero.mpr hn
    have hm' : ((ys.length : ℚ)) ≠ 0 := Nat.cast_ne_zero.mpr hm
    have hnm : ((xs.length : ℚ) + (ys.length : ℚ)) ≠ 0 := by positivity
    have hmean := lmean_append xs ys hnm
    have hslen : (stateOf xs).avg.len ≠ 0 := hn
    have holen : (stateOf ys).avg.len ≠ 0 := hm
    refine Kurtosis.ext (Skewness.ext (Variance.ext (Mean.ext ?_ ?_) ?_) ?_) ?_
    · simp [stateOf, Kurtosis.merge, Skewness.merge, Variance.merge, Mean.merge,
        Kurtosis.len, Kurtosis.mean, Skewness.len, Variance.len, hn, hm,
        Nat.add_eq_zero]
    · simp only [stateOf, Kurtosis.merge, Skewness.merge, Variance.merge, Mean.merge,
        Kurtosis.len, Kurtosis.mean, Skewness.len, Variance.len,
        if_neg hm, if_neg hn, if_neg (by simp [Nat.add_eq_zero, hn] : ¬(xs.length + ys.length = 0))]
      push_cast
      rw [hmean]
      field_simp
      ring
    · simp only [stateOf, Kurtosis.merge, Skewness.merge, Variance.merge, Mean.merge,
        Kurtosis.len, Kurtosis.mean, Skewness.len, Variance.len,
        if_neg hm, if_neg hn]
      push_cast
      rw [hmean, pSum_append,
          pSum_two_shift (((xs.length : ℚ) * lmean xs + (ys.length : ℚ) * lmean ys)
            / ((xs.length : ℚ) + (ys.length : ℚ))) (lmean xs) xs,
          pSum_two_shift (((xs.length : ℚ) * lmean xs + (ys.length : ℚ) * lmean ys)
            / ((xs.length : ℚ) + (ys.length : ℚ))) (lmean ys) ys,
          pSum_one_lmean, pSum_one_lmean]
      field_simp
      ring
    · simp only [stateOf, Kurtosis.merge, Skewness.merge, Variance.merge, Mean.merge,
        Kurtosis.len, Kurtosis.mean, Skewness.len, Variance.len,
        if_neg hm, if_neg hn]
      push_cast
      rw [hmean, pSum_append,
          pSum_three_shift (((xs.length : ℚ) * lmean xs + (ys.length : ℚ) * lmean ys)
            / ((xs.length : ℚ) + (ys.length : ℚ))) (lmean xs) xs,
          pSum_three_shift (((xs.length : ℚ) * lmean xs + (ys.length : ℚ) * lmean ys)
            / ((xs.length : ℚ) + (ys.length : ℚ))) (lmean ys) ys,
          pSum_one_lmean, pSum_one_lmean]
      field_simp
      ring
    · simp only [stateOf, Kurtosis.merge, Skewness.merge, Variance.merge, Mean.merge,
        Kurtosis.len, Kurtosis.mean, Skewness.len, Variance.len,
        if_neg hm, if_neg hn]
      push_cast
      rw [hmean, pSum_append,
          pSum_four_shift (((xs.length : ℚ) * lmean xs + (ys.length : ℚ) * lmean ys)
            / ((xs.length : ℚ) + (ys.length : ℚ))) (lmean xs) xs,
          pSum_four_shift (((xs.length : ℚ) * lmean xs + (ys.length : ℚ) * lmean ys)
            / ((xs.length : ℚ) + (ys.length : ℚ))) (lmean ys) ys,
          pSum_one_lmean, pSum_one_lmean]
      field_simp
      ring

lemma from_iter_nil : Kurtosis.from_iter [] = Kurtosis.new := rfl

lemma from_iter_append_singleton (xs : List ℚ) (y : ℚ) :
    Kurtosis.from_iter (xs ++ [y]) = (Kurtosis.from_iter xs).add y := by
  simp [Kurtosis.from_iter, List.foldl_append]

/-- Folding a list through `add` produces exactly the closed-form moment
state of the list. -/
theorem from_iter_stateOf (xs : List ℚ) : Kurtosis.from_iter xs = stateOf xs := by
  induction xs using List.reverseRecOn with
  | nil => rw [from_iter_nil, stateOf_nil]
  | append_singleton xs y ih => rw [from_iter_append_singleton, ih, add_stateOf]

/-! ### Claim theorems -/

/-- C1: on `add(x)`, `Kurtosis` computes `δ = x − mean` from the pre-update
mean, increments the count to `n' = n + 1`, sets `δₙ = δ/n'`, updates `sum_4`
to `sum_4 + (δ·δₙ·(n'−1))·δₙ²·(n'²−3n'+3) + 6·δₙ²·sum_2_before − 4·δₙ·sum_3_before`
reading the owned chain's pre-update `sum_2` and `sum_3`, and only afterwards
propagates the same `(δ, δₙ)` into the owned `Skewness` (whose update starts
from the incremented-but-not-yet-updated inner state). -/
theorem claim1_add_sum4_update (s : Kurtosis) (x : ℚ) :
    (s.add x).len = s.len + 1
      ∧ (s.add x).sum_4
        = s.sum_4
          + ((x - s.mean) * ((x - s.mean) / ((s.len : ℚ) + 1)) * (((s.len : ℚ) + 1) - 1))
            * ((x - s.mean) / ((s.len : ℚ) + 1)) ^ 2
            * (((s.len : ℚ) + 1) ^ 2 - 3 * ((s.len : ℚ) + 1) + 3)
          + 6 * ((x - s.mean) / ((s.len : ℚ) + 1)) ^ 2 * s.avg.avg.sum_2
          - 4 * ((x - s.mean) / ((s.len : ℚ) + 1)) * s.avg.sum_3
      ∧ (s.add x).avg
        = (s.avg.increment).add_inner (x - s.mean) ((x - s.mean) / ((s.len : ℚ) + 1)) := by
  refine ⟨rfl, ?_, ?_⟩
  · simp only [Kurtosis.add, Kurtosis.add_inner, Kurtosis.increment, Kurtosis.len,
      Kurtosis.mean, Skewness.increment, Skewness.len, Variance.increment, Variance.len,
      Mean.increment]
    push_cast
    ring
  · simp only [Kurtosis.add, Kurtosis.add_inner, Kurtosis.increment, Kurtosis.len,
      Kurtosis.mean, Skewness.increment, Skewness.len, Variance.increment, Variance.len,
      Mean.increment]
    push_cast
    rfl

/-- C2: `merge(other)` updates `sum_4` by the pairwise Pébay formula
`sum_4 + other.sum_4 + δ·δₙ·δₙ²·n·m·(n²−n·m+m²) + 6·δₙ²·(n²·other.sum_2 + m²·sum_2)
+ 4·δₙ·(n·other.sum_3 − m·sum_3)` with `n = self.len`, `m = other.len`,
`δ = other.mean − self.mean`, `δₙ = δ/(n+m)`, and then merges the owned
`Skewness`. -/
theorem claim2_merge_sum4_update (s o : Kurtosis) :
    (s.merge o).sum_4
        = s.sum_4 + o.sum_4
          + (o.mean - s.mean) * ((o.mean - s.mean) / ((s.len : ℚ) + (o.len : ℚ)))
            * ((o.mean - s.mean) / ((s.len : ℚ) + (o.len : ℚ))) ^ 2
            * (s.len : ℚ) * (o.len : ℚ)
            * ((s.len : ℚ) ^ 2 - (s.len : ℚ) * (o.len : ℚ) + (o.len : ℚ) ^ 2)
          + 6 * ((o.mean - s.mean) / ((s.len : ℚ) + (o.len : ℚ))) ^ 2
            * ((s.len : ℚ) ^ 2 * o.avg.avg.sum_2 + (o.len : ℚ) ^ 2 * s.avg.avg.sum_2)
          + 4 * ((o.mean - s.mean) / ((s.len : ℚ) + (o.len : ℚ)))
            * ((s.len : ℚ) * o.avg.sum_3 - (o.len : ℚ) * s.avg.sum_3)
      ∧ (s.merge o).avg = s.avg.merge o.avg := by
  constructor
  · simp only [Kurtosis.merge]
    ring
  · rfl

/-- C3: splitting a sequence at any index, folding the two halves
independently and merging reproduces the estimator folded over the whole
sequence — exactly, over exact arithmetic: the states coincide, hence so do
`len`, `mean`, `sample_variance`, `skewness` (its signed-square
representation) and `kurtosis`. -/
theorem claim3_split_merge (xs : List ℚ) (i : ℕ) :
    (Kurtosis.from_iter (xs.take i)).merge (Kurtosis.from_iter (xs.drop i))
        = Kurtosis.from_iter xs
      ∧ ((Kurtosis.from_iter (xs.take i)).merge (Kurtosis.from_iter (xs.drop i))).len
        = (Kurtosis.from_iter xs).len
      ∧ ((Kurtosis.from_iter (xs.take i)).merge (Kurtosis.from_iter (xs.drop i))).mean
        = (Kurtosis.from_iter xs).mean
      ∧ ((Kurtosis.from_iter (xs.take i)).merge (Kurtosis.from_iter (xs.drop i))).sample_variance
        = (Kurtosis.from_iter xs).sample_variance
      ∧ ((Kurtosis.from_iter (xs.take i)).merge (Kurtosis.from_iter (xs.drop i))).skewness_signed_sq
        = (Kurtosis.from_iter xs).skewness_signed_sq
      ∧ ((Kurtosis.from_iter (xs.take i)).merge (Kurtosis.from_iter (xs.drop i))).kurtosis
        = (Kurtosis.from_iter xs).kurtosis := by
  have h : (Kurtosis.from_iter (xs.take i)).merge (Kurtosis.from_iter (xs.drop i))
      = Kurtosis.from_iter xs := by
    rw [from_iter_stateOf, from_iter_stateOf, merge_stateOf, List.take_append_drop,
      from_iter_stateOf]
  exact ⟨h, by rw [h], by rw [h], by rw [h], by rw [h], by rw [h]⟩

/-- C6: merging an empty estimator into any estimator `E` leaves every
component of `E`'s state — count, mean, `sum_2`, `sum_3`, `sum_4` — unchanged
(exactly, over exact arithmetic). -/
theorem claim6_merge_empty_identity (E : Kurtosis) :
    E.merge Kurtosis.new = E
      ∧ (E.merge Kurtosis.new).len = E.len
      ∧ (E.merge Kurtosis.new).mean = E.mean
      ∧ (E.merge Kurtosis.new).avg.avg.sum_2 = E.avg.avg.sum_2
      ∧ (E.merge Kurtosis.new).avg.sum_3 = E.avg.sum_3
      ∧ (E.merge Kurtosis.new).sum_4 = E.sum_4 := by
  have h := merge_new_right E
  exact ⟨h, by rw [h], by rw [h], by rw [h], by rw [h], by rw [h]⟩

lemma lmean_replicate (k : ℕ) (c : ℚ) (hk : k ≠ 0) :
    lmean (List.replicate k c) = c := by
  have hk' : (k : ℚ) ≠ 0 := Nat.cast_ne_zero.mpr hk
  rw [lmean, List.sum_replicate, List.length_replicate, nsmul_eq_mul,
    mul_div_cancel_left₀ c hk']

lemma pSum_replicate_self (j k : ℕ) (c : ℚ) (hj : j ≠ 0) :
    pSum j c (List.replicate k c) = 0 := by
  induction k with
  | zero => simp
  | succ k ih => simp [List.replicate_succ, ih, zero_pow hj]

lemma pSum_lmean_replicate (j k : ℕ) (c : ℚ) (hj : j ≠ 0) :
    pSum j (lmean (List.replicate k c)) (List.replicate k c) = 0 := by
  rcases eq_or_ne k 0 with hk | hk
  · subst hk
    simp
  · rw [lmean_replicate k c hk, pSum_replicate_self j k c hj]

lemma pSum_four_nonneg (t : ℚ) (xs : List ℚ) : 0 ≤ pSum 4 t xs := by
  refine List.sum_nonneg ?_
  intro q hq
  obtain ⟨x, _, rfl⟩ := List.mem_map.mp hq
  positivity

lemma pSum_short (k : ℕ) (xs : List ℚ) (h : xs.length ≤ 1) (hk : k ≠ 0) :
    pSum k (lmean xs) xs = 0 := by
  match xs, h with
  | [], _ => simp
  | [a], _ =>
      simp [pSum, lmean, zero_pow hk]

/-- C5: the `kurtosis()` query is a pure function of the state (it takes the
estimator by shared reference and mutates nothing): it returns 0 whenever
`sum_4 = 0`, and otherwise `n·sum_4/sum_2² − 3`; `sum_4 = 0` does hold for
every fold of fewer than two observations and for every constant sequence. -/
theorem claim5_kurtosis_query (s : Kurtosis) (xs : List ℚ) (k : ℕ) (c : ℚ) :
    (s.sum_4 = 0 → s.kurtosis = 0)
      ∧ (s.sum_4 ≠ 0 →
          s.kurtosis
            = (s.len : ℚ) * s.sum_4 / (s.avg.avg.sum_2 * s.avg.avg.sum_2) - 3)
      ∧ (xs.length < 2 → (Kurtosis.from_iter xs).sum_4 = 0)
      ∧ (Kurtosis.from_iter (List.replicate k c)).sum_4 = 0 := by
  refine ⟨?_, ?_, ?_, ?_⟩
  · intro h
    rw [Kurtosis.kurtosis, if_pos h]
  · intro h
    rw [Kurtosis.kurtosis, if_neg h]
  · intro h
    rw [from_iter_stateOf]
    exact pSum_short 4 xs (Nat.lt_succ_iff.mp h) (by norm_num)
  · rw [from_iter_stateOf]
    exact pSum_lmean_replicate 4 k c (by norm_num)

/-- Concrete evaluation of the fold of `{1,2,3,4,5}`: count 5, mean 3,
`sum_2 = 10`, `sum_3 = 0`, `sum_4 = 34`. -/
lemma from_iter_12345 :
    Kurtosis.from_iter [1, 2, 3, 4, 5] = ⟨⟨⟨⟨5, 3⟩, 10⟩, 0⟩, 34⟩ := by
  norm_num [Kurtosis.from_iter, List.foldl_cons, List.foldl_nil, Kurtosis.add,
    Kurtosis.add_inner, Kurtosis.increment, Kurtosis.mean, Kurtosis.len, Kurtosis.new,
    Skewness.add_inner, Skewness.increment, Skewness.len, Skewness.new,
    Variance.add_inner, Variance.increment, Variance.len, Variance.new,
    Mean.add_inner, Mean.increment, Mean.new]

/-- Concrete evaluation of the fold of `{1,2,3,4,5,1}`: count 6, mean 8/3,
`sum_2 = 40/3`, `sum_3 = 50/9`, `sum_4 = 436/9`. -/
lemma from_iter_123451 :
    Kurtosis.from_iter [1, 2, 3, 4, 5, 1]
      = ⟨⟨⟨⟨6, 8 / 3⟩, 40 / 3⟩, 50 / 9⟩, 436 / 9⟩ := by
  norm_num [Kurtosis.from_iter, List.foldl_cons, List.foldl_nil, Kurtosis.add,
    Kurtosis.add_inner, Kurtosis.increment, Kurtosis.mean, Kurtosis.len, Kurtosis.new,
    Skewness.add_inner, Skewness.increment, Skewness.len, Skewness.new,
    Variance.add_inner, Variance.increment, Variance.len, Variance.new,
    Mean.add_inner, Mean.increment, Mean.new]

/-- Concrete evaluation of the fold of the single observation `{1}`. -/
lemma from_iter_single :
    Kurtosis.from_iter [(1 : ℚ)] = ⟨⟨⟨⟨1, 1⟩, 0⟩, 0⟩, 0⟩ := by
  norm_num [Kurtosis.from_iter, List.foldl_cons, List.foldl_nil, Kurtosis.add,
    Kurtosis.add_inner, Kurtosis.increment, Kurtosis.mean, Kurtosis.len, Kurtosis.new,
    Skewness.add_inner, Skewness.increment, Skewness.len, Skewness.new,
    Variance.add_inner, Variance.increment, Variance.len, Variance.new,
    Mean.add_inner, Mean.increment, Mean.new]

/-- C5 witness: the theorem applied at the concrete six-element fold of the
crate's test sequence (for the non-degenerate branch) and at a one-element
fold (for the degenerate branch). -/
theorem claim5_kurtosis_query_witness :
    ((Kurtosis.from_iter [1, 2, 3, 4, 5, 1]).sum_4 ≠ 0
        ∧ (Kurtosis.from_iter [1, 2, 3, 4, 5, 1]).kurtosis
          = ((Kurtosis.from_iter [1, 2, 3, 4, 5, 1]).len : ℚ)
            * (Kurtosis.from_iter [1, 2, 3, 4, 5, 1]).sum_4
            / ((Kurtosis.from_iter [1, 2, 3, 4, 5, 1]).avg.avg.sum_2
              * (Kurtosis.from_iter [1, 2, 3, 4, 5, 1]).avg.avg.sum_2) - 3)
      ∧ ([(1 : ℚ)].length < 2 ∧ (Kurtosis.from_iter [(1 : ℚ)]).sum_4 = 0) := by
  refine ⟨⟨?_, ?_⟩, by decide, ?_⟩
  · rw [from_iter_123451]
    norm_num
  · exact (claim5_kurtosis_query (Kurtosis.from_iter [1, 2, 3, 4, 5, 1]) [] 0 0).2.1
      (by rw [from_iter_123451]; norm_num)
  · exact (claim5_kurtosis_query Kurtosis.new [(1 : ℚ)] 0 0).2.2.1 (by decide)

/-- Estimator states reachable by any sequence of `add` and `merge`
operations starting from newly constructed estimators. -/
inductive Reachable : Kurtosis → Prop where
  | new : Reachable Kurtosis.new
  | add : ∀ {s : Kurtosis} (x : ℚ), Reachable s → Reachable (s.add x)
  | merge : ∀ {s o : Kurtosis}, Reachable s → Reachable o → Reachable (s.merge o)

/-- Every reachable state is the closed-form moment state of some list of
observations. -/
lemma reachable_stateOf {s : Kurtosis} (h : Reachable s) :
    ∃ xs : List ℚ, s = stateOf xs := by
  induction h with
  | new => exact ⟨[], stateOf_nil.symm⟩
  | add x _ ih =>
      obtain ⟨xs, rfl⟩ := ih
      exact ⟨xs ++ [x], (add_stateOf xs x).symm ▸ rfl⟩
  | merge _ _ ih1 ih2 =>
      obtain ⟨xs, rfl⟩ := ih1
      obtain ⟨ys, rfl⟩ := ih2
      exact ⟨xs ++ ys, (merge_stateOf xs ys).symm ▸ rfl⟩

/-- C7: along every sequence of `add` and `merge` operations from a fresh
estimator, `sum_4` stays nonnegative, and it is 0 whenever the count is at
most 1. -/
theorem claim7_sum4_invariant (s : Kurtosis) (h : Reachable s) :
    0 ≤ s.sum_4 ∧ (s.len ≤ 1 → s.sum_4 = 0) := by
  obtain ⟨xs, rfl⟩ := reachable_stateOf h
  constructor
  · exact pSum_four_nonneg _ _
  · intro hlen
    exact pSum_short 4 xs hlen (by norm_num)

/-- C7 witness: the invariant instantiated at the reachable state
`(new.add 1).merge (new.add 2)`. -/
theorem claim7_sum4_invariant_witness :
    0 ≤ ((Kurtosis.new.add 1).merge (Kurtosis.new.add 2)).sum_4
      ∧ (((Kurtosis.new.add 1).merge (Kurtosis.new.add 2)).len ≤ 1 →
          ((Kurtosis.new.add 1).merge (Kurtosis.new.add 2)).sum_4 = 0) :=
  claim7_sum4_invariant _
    (Reachable.merge (Reachable.add 1 Reachable.new) (Reachable.add 2 Reachable.new))

/-- C8: folding a constant sequence of any length yields
`sample_variance() = 0`, `skewness() = 0` and `kurtosis() = 0` (all queries
are well-defined rationals — in exact arithmetic no NaN exists to produce). -/
theorem claim8_constant_sequences (k : ℕ) (c : ℚ) :
    (Kurtosis.from_iter (List.replicate k c)).sample_variance = 0
      ∧ (Kurtosis.from_iter (List.replicate k c)).skewness_signed_sq = 0
      ∧ (Kurtosis.from_iter (List.replicate k c)).kurtosis = 0 := by
  rw [from_iter_stateOf]
  have h2 : pSum 2 (lmean (List.replicate k c)) (List.replicate k c) = 0 :=
    pSum_lmean_replicate 2 k c (by norm_num)
  have h4 : pSum 4 (lmean (List.replicate k c)) (List.replicate k c) = 0 :=
    pSum_lmean_replicate 4 k c (by norm_num)
  refine ⟨?_, ?_, ?_⟩
  · simp only [stateOf, Kurtosis.sample_variance, Variance.sample_variance, Variance.len]
    rcases lt_or_le (List.replicate k c).length 2 with h | h
    · rw [if_pos h]
    · rw [if_neg (not_lt.mpr h), h2, zero_div]
  · simp only [stateOf, Kurtosis.skewness_signed_sq, Skewness.skewness_signed_sq,
      Skewness.len, Variance.len]
    rw [if_pos (Or.inl h2)]
  · simp only [stateOf, Kurtosis.kurtosis]
    rw [if_pos h4]

/-- C9: the crate's `simple` test scenario, in exact arithmetic: folding
`{1,2,3,4,5}` yields `mean = 3`, `len = 5`, `sample_variance = 5/2`,
`error_mean = √(1/2)` (the radicand is exactly 1/2) and `skewness = 0`
exactly; adding one further observation `1` makes the signed square of
`skewness` exactly `5/64`, i.e. `skewness = √5/8`, which lies within `1e-15`
of the test's expected value `0.2795084971874741` (final two conjuncts:
both bounds of the interval, compared after squaring). -/
theorem claim9_simple_scenario :
    (Kurtosis.from_iter [1, 2, 3, 4, 5]).mean = 3
      ∧ (Kurtosis.from_iter [1, 2, 3, 4, 5]).len = 5
      ∧ (Kurtosis.from_iter [1, 2, 3, 4, 5]).sample_variance = 5 / 2
      ∧ (Kurtosis.from_iter [1, 2, 3, 4, 5]).error_mean_sq = 1 / 2
      ∧ (Kurtosis.from_iter [1, 2, 3, 4, 5]).skewness_signed_sq = 0
      ∧ ((Kurtosis.from_iter [1, 2, 3, 4, 5]).add 1).skewness_signed_sq = 5 / 64
      ∧ (2795084971874741 / 10 ^ 16 - 1 / 10 ^ 15 : ℚ) ^ 2 < 5 / 64
      ∧ ((5 : ℚ) / 64) < (2795084971874741 / 10 ^ 16 + 1 / 10 ^ 15) ^ 2 := by
  have h6 : (Kurtosis.from_iter [1, 2, 3, 4, 5]).add 1
      = (⟨⟨⟨⟨6, 8 / 3⟩, 40 / 3⟩, 50 / 9⟩, 436 / 9⟩ : Kurtosis) := by
    rw [← from_iter_append_singleton]
    exact from_iter_123451
  have habs : |(50 : ℚ) / 9| = 50 / 9 := abs_of_nonneg (by norm_num)
  refine ⟨?_, ?_, ?_, ?_, ?_, ?_, by norm_num, by norm_num⟩
  · rw [from_iter_12345]
    rfl
  · rw [from_iter_12345]
    rfl
  · rw [from_iter_12345]
    norm_num [Kurtosis.sample_variance, Variance.sample_variance, Variance.len]
  · rw [from_iter_12345]
    norm_num [Kurtosis.error_mean_sq, Variance.error_mean_sq,
      Variance.sample_variance, Variance.len]
  · rw [from_iter_12345]
    norm_num [Kurtosis.skewness_signed_sq, Skewness.skewness_signed_sq,
      Skewness.len, Variance.len]
  · rw [h6]
    norm_num [Kurtosis.skewness_signed_sq, Skewness.skewness_signed_sq,
      Skewness.len, Variance.len, habs]

/-! ### Totality of the `approx_from(...).unwrap()` conversions (C10) -/

/-- Modelled from the spec (§6) and the `conv` dependency: approximating the
`u64` count as an `f64` (`f64::approx_from` with the default scheme) is
infallible — its error type `NoError` is uninhabited — so it yields `some` of
the cast for every count.  A `none` would model a panicking `unwrap`. -/
def approx_from (n : ℕ) : Option ℚ := some (n : ℚ)

/-- `Kurtosis::add_inner` with the fallibility of its
`f64::approx_from(self.len()).unwrap()` call (kurtosis.rs, line 50) made
explicit. -/
def Kurtosis.add_inner_checked (s : Kurtosis) (delta delta_n : ℚ) : Option Kurtosis := do
  let n ← approx_from s.len
  let term := delta * delta_n * (n - 1)
  let delta_n_sq := delta_n * delta_n
  some { avg := s.avg.add_inner delta delta_n
         sum_4 := s.sum_4 + term * delta_n_sq * (n * n - 3 * n + 3)
           + 6 * delta_n_sq * s.avg.avg.sum_2
           - 4 * delta_n * s.avg.sum_3 }

/-- `Kurtosis::add` with the fallibility of its conversion (kurtosis.rs,
line 28) made explicit. -/
def Kurtosis.add_checked (s : Kurtosis) (x : ℚ) : Option Kurtosis := do
  let delta := x - s.mean
  let s' := s.increment
  let n ← approx_from s'.len
  s'.add_inner_checked delta (delta / n)

/-- `Kurtosis::kurtosis` with the fallibility of its conversion
(kurtosis.rs, line 113) made explicit. -/
def Kurtosis.kurtosis_checked (s : Kurtosis) : Option ℚ :=
  if s.sum_4 = 0 then some 0
  else do
    let n ← approx_from s.len
    some (n * s.sum_4 / (s.avg.avg.sum_2 * s.avg.avg.sum_2) - 3)

/-- `Kurtosis::merge` with the fallibility of its two conversions
(kurtosis.rs, lines 120–121) made explicit. -/
def Kurtosis.merge_checked (s o : Kurtosis) : Option Kurtosis := do
  let len_self ← approx_from s.len
  let len_other ← approx_from o.len
  let len_total := len_self + len_other
  let delta := o.mean - s.mean
  let delta_n := delta / len_total
  let delta_n_sq := delta_n * delta_n
  some { avg := s.avg.merge o.avg
         sum_4 := s.sum_4 + o.sum_4
           + delta * delta_n * delta_n_sq * len_self * len_other
             * (len_self * len_self - len_self * len_other + len_other * len_other)
           + 6 * delta_n_sq * (len_self * len_self * o.avg.avg.sum_2
             + len_other * len_other * s.avg.avg.sum_2)
           + 4 * delta_n * (len_self * o.avg.sum_3 - len_other * s.avg.sum_3) }

/-- C10: every `f64::approx_from(len).unwrap()` in `add`, `add_inner`,
`kurtosis` and `merge` succeeds at every reachable (indeed every) count, so
no public operation panics: each operation with explicit fallibility returns
`some` of the total operation's result. -/
theorem claim10_no_panic (s o : Kurtosis) (x delta delta_n : ℚ) :
    s.add_checked x = some (s.add x)
      ∧ s.add_inner_checked delta delta_n = some (s.add_inner delta delta_n)
      ∧ s.kurtosis_checked = some s.kurtosis
      ∧ s.merge_checked o = some (s.merge o) := by
  refine ⟨rfl, rfl, ?_, rfl⟩
  rw [Kurtosis.kurtosis_checked, Kurtosis.kurtosis]
  rcases eq_or_ne s.sum_4 0 with h | h
  · rw [if_pos h, if_pos h]
  · rw [if_neg h, if_neg h]
    rfl

/-! ### IEEE NaN analysis of the unguarded `Kurtosis::merge` (C4)

The rational embedding cannot express NaN (`ℚ` sets `0/0 = 0`), so the
degenerate merge is analysed over a two-point model of `f64`: a finite
rational or NaN.  Infinities are conflated with NaN by `fdiv`, which is only
inexact for `x/0` with `x ≠ 0`; in the trace analysed here the single
division by zero is `0/0`, where IEEE 754 also yields NaN. -/

/-- A double-precision value for the NaN analysis. -/
inductive FP where
  | num : ℚ → FP
  | nan : FP
deriving DecidableEq

/-- IEEE addition (NaN-propagating). -/
def FP.fadd : FP → FP → FP
  | FP.num a, FP.num b => FP.num (a + b)
  | _, _ => FP.nan

/-- IEEE subtraction (NaN-propagating). -/
def FP.fsub : FP → FP → FP
  | FP.num a, FP.num b => FP.num (a - b)
  | _, _ => FP.nan

/-- IEEE multiplication (NaN-propagating; note `0 · NaN = NaN`). -/
def FP.fmul : FP → FP → FP
  | FP.num a, FP.num b => FP.num (a * b)
  | _, _ => FP.nan

/-- IEEE division: division by zero yields NaN here (exact for the `0/0`
case, which is the only one arising below). -/
def FP.fdiv : FP → FP → FP
  | FP.num a, FP.num b => if b = 0 then FP.nan else FP.num (a / b)
  | _, _ => FP.nan

/-- IEEE comparison `x == 0.`: NaN compares false. -/
def FP.eqZero : FP → Bool
  | FP.num a => a == 0
  | FP.nan => false

/-- Modelled from the spec (§4.1) over `FP`: the leaf mean estimator. -/
structure MeanFP where
  n : ℕ
  mean : FP
deriving DecidableEq

/-- The empty `MeanFP`. -/
def MeanFP.new : MeanFP := ⟨0, FP.num 0⟩

/-- Modelled from the spec (§4.1) over `FP`: guarded mean merge. -/
def MeanFP.merge (s o : MeanFP) : MeanFP :=
  if s.n + o.n = 0 then s
  else
    { n := s.n + o.n
      mean := s.mean.fadd (((o.mean.fsub s.mean).fmul (FP.num (o.n : ℚ))).fdiv
        (FP.num ((s.n : ℚ) + (o.n : ℚ)))) }

/-- Modelled from the spec (§4.2) over `FP`. -/
structure VarianceFP where
  avg : MeanFP
  sum_2 : FP
deriving DecidableEq

/-- The empty `VarianceFP`. -/
def VarianceFP.new : VarianceFP := ⟨MeanFP.new, FP.num 0⟩

/-- Sample size. -/
def VarianceFP.len (s : VarianceFP) : ℕ := s.avg.n

/-- Modelled from the spec (§4.2) over `FP`: merge guarded on either side
being empty. -/
def VarianceFP.merge (s o : VarianceFP) : VarianceFP :=
  if o.len = 0 then s
  else if s.len = 0 then o
  else
    let n : FP := FP.num (s.len : ℚ)
    let m : FP := FP.num (o.len : ℚ)
    let delta := o.avg.mean.fsub s.avg.mean
    { avg := s.avg.merge o.avg
      sum_2 := s.sum_2.fadd (o.sum_2.fadd
        ((((delta.fmul delta).fmul n).fmul m).fdiv (n.fadd m))) }

/-- Modelled from the spec (§4.2) over `FP`: `sample_variance()`. -/
def VarianceFP.sample_variance (s : VarianceFP) : FP :=
  if s.len < 2 then FP.num 0
  else s.sum_2.fdiv (FP.num ((s.len : ℚ) - 1))

/-- Modelled from the spec (§4.3) over `FP`. -/
structure SkewnessFP where
  avg : VarianceFP
  sum_3 : FP
deriving DecidableEq

/-- The empty `SkewnessFP`. -/
def SkewnessFP.new : SkewnessFP := ⟨VarianceFP.new, FP.num 0⟩

/-- Sample size. -/
def SkewnessFP.len (s : SkewnessFP) : ℕ := s.avg.len

/-- Modelled from the spec (§4.3) over `FP`: merge guarded on either side
being empty, adopting the non-empty side's state. -/
def SkewnessFP.merge (s o : SkewnessFP) : SkewnessFP :=
  if o.len = 0 then s
  else if s.len = 0 then o
  else
    let n : FP := FP.num (s.len : ℚ)
    let m : FP := FP.num (o.len : ℚ)
    let n_total := n.fadd m
    let delta := o.avg.avg.mean.fsub s.avg.avg.mean
    { avg := s.avg.merge o.avg
      sum_3 := (s.sum_3.fadd o.sum_3).fadd
        (((((delta.fmul delta).fmul delta).fmul (n.fmul m)).fmul (n.fsub m)).fdiv
          (n_total.fmul n_total)) |>.fadd
        (((FP.num 3).fmul (delta.fdiv n_total)).fmul
          ((n.fmul o.avg.sum_2).fsub (m.fmul s.avg.sum_2))) }

/-- `Kurtosis` over `FP` (kurtosis.rs, lines 5–11). -/
structure KurtosisFP where
  avg : SkewnessFP
  sum_4 : FP
deriving DecidableEq

/-- `Kurtosis::new` over `FP`. -/
def KurtosisFP.new : KurtosisFP := ⟨SkewnessFP.new, FP.num 0⟩

/-- `Kurtosis::len` over `FP`. -/
def KurtosisFP.len (s : KurtosisFP) : ℕ := s.avg.len

/-- `Kurtosis::mean` over `FP`. -/
def KurtosisFP.mean (s : KurtosisFP) : FP := s.avg.avg.avg.mean

/-- `Kurtosis::sample_variance` over `FP`. -/
def KurtosisFP.sample_variance (s : KurtosisFP) : FP := s.avg.avg.sample_variance

/-- `Kurtosis::kurtosis` over `FP` (kurtosis.rs, lines 109–115): the guard is
the IEEE comparison `sum_4 == 0.`, which is false for NaN. -/
def KurtosisFP.kurtosis (s : KurtosisFP) : FP :=
  if s.sum_4.eqZero then FP.num 0
  else (((FP.num (s.len : ℚ)).fmul s.sum_4).fdiv
    (s.avg.avg.sum_2.fmul s.avg.avg.sum_2)).fsub (FP.num 3)

/-- `Kurtosis::merge` over `FP` (kurtosis.rs, lines 119–132): no empty guard;
`delta_n = delta / len_total` is computed outright. -/
def KurtosisFP.merge (s o : KurtosisFP) : KurtosisFP :=
  let len_self : FP := FP.num (s.len : ℚ)
  let len_other : FP := FP.num (o.len : ℚ)
  let len_total := len_self.fadd len_other
  let delta := o.mean.fsub s.mean
  let delta_n := delta.fdiv len_total
  let delta_n_sq := delta_n.fmul delta_n
  { avg := s.avg.merge o.avg
    sum_4 := ((((s.sum_4.fadd o.sum_4).fadd
      (((((delta.fmul delta_n).fmul delta_n_sq).fmul len_self).fmul len_other).fmul
        (((len_self.fmul len_self).fsub (len_self.fmul len_other)).fadd
          (len_other.fmul len_other))))).fadd
      (((FP.num 6).fmul delta_n_sq).fmul
        (((len_self.fmul len_self).fmul o.avg.avg.sum_2).fadd
          ((len_other.fmul len_other).fmul s.avg.avg.sum_2)))).fadd
      (((FP.num 4).fmul delta_n).fmul
        (((len_self.fmul o.avg.sum_3).fsub (len_other.fmul s.avg.sum_3)))) }

/-- C4 is false of the code: `Kurtosis::merge` has no empty guard, so merging
two empty estimators computes `delta_n = 0.0/0.0`, which is NaN, and NaN
enters `sum_4` (every correction term is a product with NaN, and `0 · NaN =
NaN`); the `kurtosis()` query then returns NaN, because its `sum_4 == 0.`
guard compares NaN as false.  The guarded inner levels are unchanged, so
`mean()` and `sample_variance()` still read 0. -/
theorem claim4_empty_merge_nan :
    (KurtosisFP.new.merge KurtosisFP.new).sum_4 = FP.nan
      ∧ (KurtosisFP.new.merge KurtosisFP.new).kurtosis = FP.nan
      ∧ (KurtosisFP.new.merge KurtosisFP.new).avg = SkewnessFP.new
      ∧ (KurtosisFP.new.merge KurtosisFP.new).mean = FP.num 0
      ∧ (KurtosisFP.new.merge KurtosisFP.new).sample_variance = FP.num 0 := by
  have h : KurtosisFP.new.merge KurtosisFP.new
      = { avg := SkewnessFP.new, sum_4 := FP.nan } := by
    norm_num [KurtosisFP.merge, KurtosisFP.new, KurtosisFP.len, KurtosisFP.mean,
      SkewnessFP.merge, SkewnessFP.new, SkewnessFP.len, VarianceFP.merge,
      VarianceFP.new, VarianceFP.len, MeanFP.merge, MeanFP.new,
      FP.fadd, FP.fsub, FP.fmul, FP.fdiv]
  rw [h]
  refine ⟨rfl, ?_, rfl, rfl, rfl⟩
  rw [KurtosisFP.kurtosis]
  rfl

end Average
